import Mathlib

set_option maxRecDepth 8192

/-!
Verification development for the `nodi` piano-learning fork.

The Rust sources are embedded shallowly:
- machine integers are modelled as `Nat`/`Int`, with an explicit `% 2 ^ 64`
  where `usize` wrap-around matters (`get_led_index`);
- `f64` tempo arithmetic in `Ticker` is modelled exactly, keeping the value
  `tempo / ticks_per_beat` as an unreduced integer fraction (the source only
  multiplies and divides small integers, so the exact rational is what the
  float approximates); the `f64` curve arithmetic of `velocityrainbow_color`
  is modelled over `ℚ` with the unrepresentable exponential abstracted as a
  parameter;
- `Duration` values are natural numbers of microseconds;
- fallible operations (out-of-bounds `Vec` indexing, which panics in Rust)
  return `Option` or a dedicated `panic` result constructor;
- wall-clock reads (`Instant::now`, `Instant::elapsed`) are supplied as
  explicit parameters (oracles) where their value is observable.
-/

/-- RGB color triple, as stored in the LED frame buffer (`(u8, u8, u8)`). -/
abbrev RGB : Type := Nat × Nat × Nat

/-- Modulus of `usize` arithmetic on the 64-bit targets the crate is built for. -/
def USIZE : Nat := 2 ^ 64

/-- The per-band LED offset chosen by `get_led_index` in `src/lib.rs`
(`if key < 56 {39} else if key < 69 {40} else if key < 93 {41} else {42}`). -/
def ledOffset (key : Nat) : Nat :=
  if key < 56 then 39
  else if key < 69 then 40
  else if key < 93 then 41
  else 42

/-- `get_led_index` from `src/lib.rs`: `key as usize * 2 - led_offset`, with
the subtraction performed in `usize`, hence wrapping modulo `2 ^ 64` when
`key * 2 < led_offset` (release-profile Rust semantics). -/
def get_led_index (key : Nat) : Nat :=
  (key * 2 + (USIZE - ledOffset key)) % USIZE

/-- MIDI channel-voice message, as matched by the players
(`midly::MidiMessage`); messages other than NoteOn/NoteOff fall into the
wildcard arm of every `match` in the sources. -/
inductive Msg : Type
  | noteOn (key vel : Nat)
  | noteOff (key vel : Nat)
  | otherMsg
deriving DecidableEq, Repr

/-- A `nodi::MidiEvent`: originating track, channel, and the message. -/
structure MidiEvt : Type where
  track : Nat
  channel : Nat
  message : Msg
deriving DecidableEq, Repr

/-- Modelled from the spec: `Event` (its module `event.rs` is not among the
provided sources) is a tagged union of a tempo change (microseconds per beat)
and a `Midi` event; both players match exactly these two shapes. -/
inductive Event : Type
  | tempo (val : Nat)
  | midi (msg : MidiEvt)
deriving DecidableEq, Repr

/-- Modelled from the spec: a `Moment` (module `sheet.rs` is not among the
provided sources) is the ordered collection of events at one tick offset;
`Moment::is_empty` is emptiness of that collection. -/
structure Moment : Type where
  events : List Event
deriving DecidableEq, Repr

/-- `Moment::is_empty`. -/
def Moment.isEmpty (m : Moment) : Bool := m.events.isEmpty

/-- The state of `timers::Ticker`: ticks-per-beat, current microseconds per
tick, the drift base point `last_instant` (an abstract timestamp in
microseconds), and the public `speed` factor.  `micros_per_tick` is an `f64`
in the source holding the value `tempo / ticks_per_beat`; the model keeps that
exact rational as the unreduced fraction `microsNum / microsDen` (and `speed`
as `speedNum / speedDen`, `1/1` by default) so that every operation is
kernel-computable.  The source only ever multiplies and divides these small
integers, so the exact value is what the float approximates ("within
rounding" in the terms of the spec). -/
structure TickerQ : Type where
  ticksPerBeat : Nat
  microsNum : Nat
  microsDen : Nat
  lastInstant : Option Nat
  speedNum : Nat
  speedDen : Nat
deriving DecidableEq, Repr

/-- `Ticker::new`: tempo unset (`micros_per_tick = 0.0`), no last instant,
speed `1.0`. -/
def TickerQ.new (ticksPerBeat : Nat) : TickerQ :=
  { ticksPerBeat := ticksPerBeat, microsNum := 0, microsDen := 1,
    lastInstant := none, speedNum := 1, speedDen := 1 }

/-- `<Ticker as Timer>::change_tempo`: `micros_per_tick = tempo / ticks_per_beat`. -/
def TickerQ.changeTempo (tk : TickerQ) (tempo : Nat) : TickerQ :=
  { tk with microsNum := tempo, microsDen := tk.ticksPerBeat }

/-- `Ticker::sleep_duration_without_readjustment`:
`t = micros_per_tick * n_ticks / speed`; returns `Duration::from_micros(t as u64)`
when `t > 0` (the cast truncates) and the zero duration otherwise.
In exact fraction form `t = (microsNum * n * speedDen) / (microsDen * speedNum)`,
which is positive iff numerator and denominator are both positive, and whose
`u64` truncation is the `Nat` quotient. -/
def TickerQ.sleepDurationWithoutReadjustment (tk : TickerQ) (nTicks : Nat) : Nat :=
  let tNum := tk.microsNum * nTicks * tk.speedDen
  let tDen := tk.microsDen * tk.speedNum
  if 0 < tNum ∧ 0 < tDen then tNum / tDen else 0

/-- `<Ticker as Timer>::sleep_duration`.  `elapsed` is the oracle value of
`last_instant.elapsed()` in microseconds.  On the first call
(`last_instant == None`) the raw duration is returned and the current instant
(normalised to timestamp `0`) is recorded; afterwards the raw duration is
reduced by the elapsed time via `checked_sub(..).unwrap_or(t)`. -/
def TickerQ.sleepDuration (tk : TickerQ) (nTicks : Nat) (elapsed : Nat) : Nat × TickerQ :=
  let t := tk.sleepDurationWithoutReadjustment nTicks
  match tk.lastInstant with
  | some li =>
      (if elapsed ≤ t then t - elapsed else t, { tk with lastInstant := some (li + t) })
  | none => (t, { tk with lastInstant := some 0 })

/-- The all-off 176-cell frame both players allocate, initially flush, and
(on the completion path) flush again on exit. -/
def allOffFrame : List RGB := List.replicate 176 (0, 0, 0)

/-- `Vec` indexed assignment `data[index] = v` followed by the use of `data`:
in-bounds it updates the buffer, out of bounds it panics (`none`). -/
def setLed (data : List RGB) (i : Nat) (v : RGB) : Option (List RGB) :=
  if i < data.length then some (data.set i v) else none

/-- `HashMap::insert` on the `notes_to_press` map, as an association list
(no duplicate keys arise: inserting an existing key overwrites its value). -/
def alInsert (k : Nat) (v : Bool) (l : List (Nat × Bool)) : List (Nat × Bool) :=
  if (l.lookup k).isSome then l.map (fun p => if p.1 = k then (k, v) else p)
  else (k, v) :: l

/-- `HashSet::insert` on the `notes_pressed` set. -/
def hsInsert (k : Nat) (l : List Nat) : List Nat :=
  if k ∈ l then l else k :: l

/-- The exit condition of `Learner::wait_for_keys`: the loop terminates when
`notes_to_press` is empty (the `while` guard) or every value in it is `true`
(the `break`). -/
def waitSatB (l : List (Nat × Bool)) : Bool :=
  l.isEmpty || l.all (fun p => p.2)

/-- The shared state touched by the listener callback `handle_midi_message`:
the two maps, the LED frame buffer with its flushed-frame log, and the
boolean guarded by the condition-variable mutex. -/
structure ListenerSt : Type where
  notesToPress : List (Nat × Bool)
  notesPressed : List Nat
  ledData : List RGB
  writes : List (List RGB)
  cvFlag : Bool
deriving DecidableEq, Repr

/-- `handle_midi_message` from `src/learner.rs`.  `status` is `message[0]`,
`key` is `message[1]`.  The LED index is computed up front from the raw key.
On a NoteOn (`0x90` status nibble): insert into `notes_pressed`; if the key is
expected, mark it `true` and signal (set the condvar boolean, `notify_one`);
otherwise paint that LED red and flush (panicking if the index is out of
bounds).  On a NoteOff (`0x80`): remove from `notes_pressed`; if expected,
mark it `false`; otherwise clear that LED and flush.  Anything else is
ignored. -/
def handleMidiMessage (status key : Nat) (st : ListenerSt) : Option ListenerSt :=
  let index := get_led_index key
  if status &&& 240 = 144 then
    let st1 := { st with notesPressed := hsInsert key st.notesPressed }
    if (st1.notesToPress.lookup key).isSome then
      some { st1 with notesToPress := alInsert key true st1.notesToPress, cvFlag := true }
    else
      match setLed st1.ledData index (1, 0, 0) with
      | some d => some { st1 with ledData := d, writes := st1.writes ++ [d] }
      | none => none
  else if status &&& 240 = 128 then
    let st1 := { st with notesPressed := st.notesPressed.erase key }
    if (st1.notesToPress.lookup key).isSome then
      some { st1 with notesToPress := alInsert key false st1.notesToPress }
    else
      match setLed st1.ledData index (0, 0, 0) with
      | some d => some { st1 with ledData := d, writes := st1.writes ++ [d] }
      | none => none
  else some st

/-- Modelled from the spec: `Learner::learn` calls
`self.timer.sleep_with_adjustment(counter, process_time)`, a drift-compensating
variant that is absent from the provided sources; the spec says it accepts a
measured processing time to subtract from the next computed sleep, clamped to
zero if negative.  It returns the duration actually slept. -/
def sleepWithAdjustment (tk : TickerQ) (nTicks : Nat) (processTime : Nat) : Nat :=
  tk.sleepDurationWithoutReadjustment nTicks - processTime

/-- Claim-side band table of C5, taken verbatim from the spec text
(`<56: offset 39; <69: offset 40; <93: offset 41; else: offset 42`). -/
def ledOffsetSpecC5 (key : Nat) : Nat :=
  if key < 56 then 39
  else if key < 69 then 40
  else if key < 93 then 41
  else 42

/-- Claim-side index formula of C5: `key*2 - offset`, in the same `usize`
arithmetic the function runs in. -/
def ledIndexSpecC5 (key : Nat) : Nat :=
  (key * 2 + (USIZE - ledOffsetSpecC5 key)) % USIZE

/-- Keys whose LED index both avoids `usize` underflow and addresses the
176-LED frame buffer allocated by `Player::play` and `Learner::learn`. -/
def keyLedSafe (key : Nat) : Prop := 20 ≤ key ∧ key ≤ 108

instance (key : Nat) : Decidable (keyLedSafe key) := by
  unfold keyLedSafe; infer_instance

/-- Modelled from the spec: `rainbow_color2`, the per-key playback color used
by `Player::play`, is referenced but absent from the provided sources.  The
spec only constrains colors to be role-dependent and distinct from the
all-off value used for silence, so the model fixes an arbitrary non-off
color. -/
def rainbow_color2 (_key : Nat) : RGB := (0, 255, 0)

/-- State threaded through `Player::play`: the LED buffer and its flushed
frames, the events forwarded to the connection with the stream of sink
responses (`con i` answers the `i`-th `Connection::play` call), the timer and
the tick counter. -/
structure PSt : Type where
  ledData : List RGB
  writes : List (List RGB)
  forwarded : List MidiEvt
  con : Nat → Bool
  conIdx : Nat
  ticker : TickerQ
  counter : Nat

/-- Result of a step of `Player::play`: normal continuation, early
`return false` after the sink rejected an event, or a Rust panic
(out-of-bounds LED index). -/
inductive PRes : Type
  | ok (st : PSt)
  | reject (st : PSt)
  | panic

/-- `if !self.con.play(*msg) { return false; }` -/
def pForward (st : PSt) (msg : MidiEvt) : PRes :=
  let r := st.con st.conIdx
  let st1 := { st with forwarded := st.forwarded ++ [msg], conIdx := st.conIdx + 1 }
  if r then .ok st1 else .reject st1

/-- One event of the inner loop of `Player::play`: tempo events retune the
timer; NoteOn paints `rainbow_color2(key)` (or off, when the velocity is 0)
at `get_led_index(key)` and flushes; NoteOff clears that cell and flushes;
every Midi event is then forwarded to the connection. -/
def playEvent (st : PSt) (e : Event) : PRes :=
  match e with
  | .tempo v => .ok { st with ticker := st.ticker.changeTempo v }
  | .midi msg =>
    match msg.message with
    | .noteOn key vel =>
        let index := get_led_index key
        let value : RGB := if vel = 0 then (0, 0, 0) else rainbow_color2 key
        match setLed st.ledData index value with
        | none => .panic
        | some d => pForward { st with ledData := d, writes := st.writes ++ [d] } msg
    | .noteOff key _vel =>
        match setLed st.ledData (get_led_index key) (0, 0, 0) with
        | none => .panic
        | some d => pForward { st with ledData := d, writes := st.writes ++ [d] } msg
    | .otherMsg => pForward st msg

/-- The inner `for event in &moment.events` loop with its early return. -/
def playEvents (st : PSt) : List Event → PRes
  | [] => .ok st
  | e :: es =>
    match playEvent st e with
    | .ok st1 => playEvents st1 es
    | r => r

/-- One iteration of `for moment in sheet`: empty moments only advance the
tick counter; otherwise sleep the accumulated ticks (the wall-clock elapsed
oracle of the timer is irrelevant to the observables here and is passed as 0),
reset the counter, process the events, and advance the counter. -/
def playMoment (st : PSt) (m : Moment) : PRes :=
  if m.events.isEmpty then .ok { st with counter := st.counter + 1 }
  else
    let st1 := { st with ticker := (st.ticker.sleepDuration st.counter 0).2, counter := 0 }
    match playEvents st1 m.events with
    | .ok st2 => .ok { st2 with counter := st2.counter + 1 }
    | r => r

/-- The moment loop of `Player::play`. -/
def playMoments (st : PSt) : List Moment → PRes
  | [] => .ok st
  | m :: ms =>
    match playMoment st m with
    | .ok st1 => playMoments st1 ms
    | r => r

/-- The state `Player::play` sets up before the loop: a 176-cell all-off
buffer, immediately flushed once. -/
def initPSt (tk : TickerQ) (con : Nat → Bool) : PSt :=
  { ledData := allOffFrame, writes := [allOffFrame], forwarded := [],
    con := con, conIdx := 0, ticker := tk, counter := 0 }

/-- `Player::play`: run the moment loop; on completion flush one all-off
frame (`data_clear`) and return `true`; an early `return false` (sink
rejection) reaches the caller without that final flush. -/
def play (tk : TickerQ) (con : Nat → Bool) (sheet : List Moment) : PRes :=
  match playMoments (initPSt tk con) sheet with
  | .ok st => .ok { st with writes := st.writes ++ [allOffFrame] }
  | r => r

/-- Keys of NoteOn/NoteOff events are LED-safe (index in bounds). -/
def eventKeyOk (e : Event) : Bool :=
  match e with
  | .midi { message := .noteOn key _, .. } => decide (keyLedSafe key)
  | .midi { message := .noteOff key _, .. } => decide (keyLedSafe key)
  | _ => true

/-- Every note event of the sheet carries an LED-safe key. -/
def sheetSafeB (sheet : List Moment) : Bool :=
  sheet.all (fun m => m.events.all eventKeyOk)

/-- State threaded through the foreground loop of `Learner::learn`: the
shared maps, the LED buffer and its flushed frames, the forwarded events and
sink responses as in `PSt`, the timer, the tick counter, the `process_time`
drift-compensation value, and a log of the `sleep_with_adjustment` calls as
`(n_ticks, process_time, duration slept)` records. -/
structure LSt : Type where
  notesToPress : List (Nat × Bool)
  notesPressed : List Nat
  ledData : List RGB
  writes : List (List RGB)
  forwarded : List MidiEvt
  con : Nat → Bool
  conIdx : Nat
  ticker : TickerQ
  counter : Nat
  processTime : Nat
  sleeps : List (Nat × Nat × Nat)

/-- Result of a step of `Learner::learn`: continuation, early `return false`,
or panic. -/
inductive LRes : Type
  | ok (st : LSt)
  | reject (st : LSt)
  | panic

/-- `if play_note { if !self.con.play(*msg) { return false; } }` -/
def lForward (st : LSt) (msg : MidiEvt) : LRes :=
  let r := st.con st.conIdx
  let st1 := { st with forwarded := st.forwarded ++ [msg], conIdx := st.conIdx + 1 }
  if r then .ok st1 else .reject st1

/-- One event of the inner loop of `Learner::learn` (`rt` is
`right_hand_track`, `lt` is `learn_track`).  Tempo events retune the timer.
A NoteOn paints its LED (value 2 when the key is already physically held, so
the learner sees a re-press request; channel chosen by hand; off when the
velocity is 0) and flushes; then, when the velocity is non-zero, the track is
the practice track and the key lies in 36..=96, the key is inserted into
`notes_to_press` as `false` and playback of the event is suppressed.  A
NoteOff clears its LED and flushes, and is suppressed under the same
track/range test.  All other events on the practice track, and every event
off it, are forwarded to the connection. -/
def learnEvent (rt lt : Nat) (st : LSt) (e : Event) : LRes :=
  match e with
  | .tempo v => .ok { st with ticker := st.ticker.changeTempo v }
  | .midi msg =>
    match msg.message with
    | .noteOn key vel =>
        let index := get_led_index key
        let value : Nat := if key ∈ st.notesPressed then 2 else 1
        let cell : RGB :=
          if vel = 0 then (0, 0, 0)
          else if msg.track = rt then (0, value, 0) else (0, 0, value)
        match setLed st.ledData index cell with
        | none => .panic
        | some d =>
          let st1 := { st with ledData := d, writes := st.writes ++ [d] }
          if vel ≠ 0 ∧ msg.track = lt ∧ 36 ≤ key ∧ key ≤ 96 then
            .ok { st1 with notesToPress := alInsert key false st1.notesToPress }
          else lForward st1 msg
    | .noteOff key _vel =>
        match setLed st.ledData (get_led_index key) (0, 0, 0) with
        | none => .panic
        | some d =>
          let st1 := { st with ledData := d, writes := st.writes ++ [d] }
          if msg.track = lt ∧ 36 ≤ key ∧ key ≤ 96 then .ok st1
          else lForward st1 msg
    | .otherMsg => lForward st msg

/-- The inner event loop of `Learner::learn` with its early return. -/
def learnEvents (rt lt : Nat) (st : LSt) : List Event → LRes
  | [] => .ok st
  | e :: es =>
    match learnEvent rt lt st e with
    | .ok st1 => learnEvents rt lt st1 es
    | r => r

/-- One iteration of the moment loop of `Learner::learn`.  Empty moments only
advance the tick counter.  A non-empty moment sleeps
`sleep_with_adjustment(counter, process_time)` (logged), resets counter and
process time, processes its events, then blocks in `wait_for_keys`; when the
wait returns, the elapsed wall-clock time since event processing began —
supplied by the oracle argument `elapsed`, since real time is outside the
model — is recorded into `process_time`, `notes_to_press` is cleared, and the
counter advances.  The model covers the executions in which the wait
terminates; C6 treats the interleavings in which it does not. -/
def learnMoment (rt lt : Nat) (st : LSt) (m : Moment) (elapsed : Nat) : LRes :=
  if m.events.isEmpty then .ok { st with counter := st.counter + 1 }
  else
    let slept := sleepWithAdjustment st.ticker st.counter st.processTime
    let rec1 : Nat × Nat × Nat := (st.counter, st.processTime, slept)
    let st1 := { st with
      sleeps := st.sleeps ++ [rec1]
      counter := 0
      processTime := 0 }
    match learnEvents rt lt st1 m.events with
    | .ok st2 =>
        .ok { st2 with
          processTime := elapsed
          notesToPress := []
          counter := st2.counter + 1 }
    | r => r

/-- The moment loop of `Learner::learn`, with one wait-elapsed oracle value
per moment. -/
def learnRun (rt lt : Nat) (st : LSt) : List (Moment × Nat) → LRes
  | [] => .ok st
  | (m, e) :: rest =>
    match learnMoment rt lt st m e with
    | .ok st1 => learnRun rt lt st1 rest
    | r => r

/-- The state `Learner::learn` sets up before the loop (mirrors `initPSt`). -/
def initLSt (tk : TickerQ) (con : Nat → Bool) : LSt :=
  { notesToPress := [], notesPressed := [], ledData := allOffFrame,
    writes := [allOffFrame], forwarded := [], con := con, conIdx := 0,
    ticker := tk, counter := 0, processTime := 0, sleeps := [] }

/-- `Learner::learn`: run the loop; on completion flush one all-off frame and
return `true`; an early `return false` reaches the caller without it. -/
def learn (rt lt : Nat) (tk : TickerQ) (con : Nat → Bool)
    (ms : List (Moment × Nat)) : LRes :=
  match learnRun rt lt (initLSt tk con) ms with
  | .ok st => .ok { st with writes := st.writes ++ [allOffFrame] }
  | r => r

/-- `midly::TrackEventKind`, as far as `convert_hand_no_to_track` inspects
it: a Midi event carrying a message, or anything else. -/
inductive TEKind : Type
  | midiK (message : Msg)
  | otherK
deriving DecidableEq, Repr

/-- The first-NoteOn scan of `convert_hand_no_to_track`: the key of the first
NoteOn in the track, 0 when there is none. -/
def firstNoteOnKey : List TEKind → Nat
  | [] => 0
  | .midiK (.noteOn key _) :: _ => key
  | _ :: rest => firstNoteOnKey rest

/-- `convert_hand_no_to_track` from `examples/learn_midi.rs`: with fewer than
two tracks everything maps to track 0; otherwise compare the first NoteOn
keys of the last two tracks, label the higher one right hand, and select the
practice (`learn`) track by `hand_no` (0 = right, 1 = left, anything else =
both, encoded as track 0).  Returns
`(right_hand_track, left_hand_track, learn_track)`. -/
def convert_hand_no_to_track (tracks : List (List TEKind)) (hand_no : Nat) :
    Nat × Nat × Nat :=
  if tracks.length < 2 then (0, 0, 0)
  else
    let firstIdx := tracks.length - 2
    let secondIdx := tracks.length - 1
    let firstNote := firstNoteOnKey (tracks.getD firstIdx [])
    let secondNote := firstNoteOnKey (tracks.getD secondIdx [])
    let hands := if firstNote < secondNote then (secondIdx, firstIdx)
      else (firstIdx, secondIdx)
    let learnT := if hand_no = 0 then hands.1
      else if hand_no = 1 then hands.2 else 0
    (hands.1, hands.2, learnT)

/-- The 256-entry `RAINBOW_FAST_LED` colormap from `src/lib.rs`. -/
def RAINBOW_FAST_LED : List RGB :=
  [(255, 0, 0), (252, 3, 0), (250, 5, 0), (247, 8, 0), (244, 11, 0), (242, 13, 0), (239, 16, 0), (236, 19, 0),
   (234, 21, 0), (231, 24, 0), (228, 27, 0), (226, 29, 0), (223, 32, 0), (220, 35, 0), (218, 37, 0), (215, 40, 0),
   (212, 43, 0), (210, 45, 0), (207, 48, 0), (204, 51, 0), (202, 53, 0), (199, 56, 0), (196, 59, 0), (194, 61, 0),
   (191, 64, 0), (188, 67, 0), (186, 69, 0), (183, 72, 0), (180, 75, 0), (178, 77, 0), (175, 80, 0), (172, 83, 0),
   (170, 85, 0), (170, 88, 0), (170, 91, 0), (170, 93, 0), (170, 96, 0), (170, 99, 0), (170, 101, 0), (170, 104, 0),
   (170, 107, 0), (170, 109, 0), (170, 112, 0), (170, 115, 0), (170, 117, 0), (170, 120, 0), (170, 123, 0), (170, 125, 0),
   (170, 128, 0), (170, 131, 0), (170, 133, 0), (170, 136, 0), (170, 139, 0), (170, 141, 0), (170, 144, 0), (170, 147, 0),
   (170, 149, 0), (170, 152, 0), (170, 155, 0), (170, 157, 0), (170, 160, 0), (170, 163, 0), (170, 165, 0), (170, 168, 0),
   (169, 171, 0), (163, 173, 0), (158, 176, 0), (153, 179, 0), (147, 181, 0), (142, 184, 0), (137, 187, 0), (131, 189, 0),
   (126, 192, 0), (121, 195, 0), (115, 197, 0), (110, 200, 0), (105, 203, 0), (99, 205, 0), (94, 208, 0), (89, 211, 0),
   (83, 213, 0), (78, 216, 0), (73, 219, 0), (67, 221, 0), (62, 224, 0), (57, 227, 0), (51, 229, 0), (46, 232, 0),
   (41, 235, 0), (35, 237, 0), (30, 240, 0), (25, 243, 0), (19, 245, 0), (14, 248, 0), (9, 251, 0), (3, 253, 0),
   (0, 254, 1), (0, 251, 4), (0, 249, 6), (0, 246, 9), (0, 243, 12), (0, 241, 14), (0, 238, 17), (0, 235, 20),
   (0, 233, 22), (0, 230, 25), (0, 227, 28), (0, 225, 30), (0, 222, 33), (0, 219, 36), (0, 217, 38), (0, 214, 41),
   (0, 211, 44), (0, 209, 46), (0, 206, 49), (0, 203, 52), (0, 201, 54), (0, 198, 57), (0, 195, 60), (0, 193, 62),
   (0, 190, 65), (0, 187, 68), (0, 185, 70), (0, 182, 73), (0, 179, 76), (0, 177, 78), (0, 174, 81), (0, 171, 84),
   (0, 167, 88), (0, 162, 93), (0, 157, 98), (0, 151, 104), (0, 146, 109), (0, 141, 114), (0, 135, 120), (0, 130, 125),
   (0, 125, 130), (0, 119, 136), (0, 114, 141), (0, 109, 146), (0, 103, 152), (0, 98, 157), (0, 93, 162), (0, 87, 168),
   (0, 82, 173), (0, 77, 178), (0, 71, 184), (0, 66, 189), (0, 61, 194), (0, 55, 200), (0, 50, 205), (0, 45, 210),
   (0, 39, 216), (0, 34, 221), (0, 29, 226), (0, 23, 232), (0, 18, 237), (0, 13, 242), (0, 7, 248), (0, 2, 253),
   (2, 0, 253), (4, 0, 251), (7, 0, 248), (10, 0, 245), (12, 0, 243), (15, 0, 240), (18, 0, 237), (20, 0, 235),
   (23, 0, 232), (26, 0, 229), (28, 0, 227), (31, 0, 224), (34, 0, 221), (36, 0, 219), (39, 0, 216), (42, 0, 213),
   (44, 0, 211), (47, 0, 208), (50, 0, 205), (52, 0, 203), (55, 0, 200), (58, 0, 197), (60, 0, 195), (63, 0, 192),
   (66, 0, 189), (68, 0, 187), (71, 0, 184), (74, 0, 181), (76, 0, 179), (79, 0, 176), (82, 0, 173), (84, 0, 171),
   (87, 0, 168), (90, 0, 165), (92, 0, 163), (95, 0, 160), (98, 0, 157), (100, 0, 155), (103, 0, 152), (106, 0, 149),
   (108, 0, 147), (111, 0, 144), (114, 0, 141), (116, 0, 139), (119, 0, 136), (122, 0, 133), (124, 0, 131), (127, 0, 128),
   (130, 0, 125), (132, 0, 123), (135, 0, 120), (138, 0, 117), (140, 0, 115), (143, 0, 112), (146, 0, 109), (148, 0, 107),
   (151, 0, 104), (154, 0, 101), (156, 0, 99), (159, 0, 96), (162, 0, 93), (164, 0, 91), (167, 0, 88), (170, 0, 85),
   (172, 0, 83), (175, 0, 80), (178, 0, 77), (180, 0, 75), (183, 0, 72), (186, 0, 69), (188, 0, 67), (191, 0, 64),
   (194, 0, 61), (196, 0, 59), (199, 0, 56), (202, 0, 53), (204, 0, 51), (207, 0, 48), (210, 0, 45), (212, 0, 43),
   (215, 0, 40), (218, 0, 37), (220, 0, 35), (223, 0, 32), (226, 0, 29), (228, 0, 27), (231, 0, 24), (234, 0, 21),
   (236, 0, 19), (239, 0, 16), (242, 0, 13), (244, 0, 11), (247, 0, 8), (250, 0, 5), (252, 0, 3), (255, 0, 0)]

/-- `powercurve` from `src/lib.rs`: identity at `p == 0`, otherwise the
normalized exponential curve.  `E.powf` on `f64` is not representable
exactly, so the exponential is abstracted as the parameter `expf`; every
claim about this function only exercises the `p == 0` branch, where the
result is exact for any `expf`. -/
def powercurve (expf : Rat -> Rat) (x p : Rat) : Rat :=
  if p = 0 then x else (expf (-p * x) - 1) / (expf (-p) - 1)

/-- Truncation of an `f64` value to `i32` (`as i32`): toward zero. -/
def ratTrunc (q : Rat) : Int :=
  if 0 <= q then Int.floor q else Int.ceil q

/-- The intermediate `x` of `velocityrainbow_color`
(`powercurve((velocity / 127).into(), (curve / 100).into()) * (scale / 100) as f64`
with `offset = 210`, `scale = 120`, `curve = 0`): `velocity / 127` is `u8`
integer division, `curve / 100` and `scale / 100` are `i32` integer
divisions. -/
def velocityrainbow_x (expf : Rat -> Rat) (velocity : Nat) : Rat :=
  powercurve expf ((velocity / 127 : Nat) : Rat) (((0 : Int) / 100 : Int) : Rat)
    * (((120 : Int) / 100 : Int) : Rat)

/-- The colormap index of `velocityrainbow_color`:
`(x as i32 + velocityrainbow_offset) % 256`. -/
def velocityrainbow_index (expf : Rat -> Rat) (velocity : Nat) : Int :=
  (ratTrunc (velocityrainbow_x expf velocity) + 210) % 256

/-- `velocityrainbow_color` from `src/lib.rs`: look the index up in
`RAINBOW_FAST_LED` (in-bounds for every input: the index is a nonnegative
value mod 256). -/
def velocityrainbow_color (expf : Rat -> Rat) (velocity : Nat) : RGB :=
  RAINBOW_FAST_LED.getD (velocityrainbow_index expf velocity).toNat (0, 0, 0)

/-- Foreground phases of `Learner::wait_for_keys` at the granularity of its
lock acquisitions: about to test the exit condition; condition tested false
and about to call `condvar.wait` (the map lock is already released here — the
wait runs under the separate condvar mutex); parked inside `condvar.wait`;
or out of the loop. -/
inductive FgPhase : Type
  | checking
  | toWait
  | waiting
  | done
deriving DecidableEq, Repr

/-- Joint state of the foreground wait loop and the listener-visible shared
data, for the interleaving analysis of C6: the foreground phase, the
`notes_to_press` map, the history of keys the listener has marked pressed
(`pressedOnce`), whether a `notify_one` has a parked waiter to wake
(`wakePending`), and the condvar-mutex boolean the listener sets (the source
never reads it back). -/
structure WaitSt : Type where
  phase : FgPhase
  notesToPress : List (Nat × Bool)
  pressedOnce : List Nat
  wakePending : Bool
  cvFlag : Bool
deriving DecidableEq, Repr

/-- Foreground transitions of `wait_for_keys`: test the exit condition and
either leave the loop or move to the wait call; enter `condvar.wait`; or be
woken by a pending notification and loop back to the test.  There is no
other way out of `waiting`: spurious wakeups are permitted by the platform
but never guaranteed, so a refutation of liveness may assume none occur. -/
inductive WStepFg : WaitSt → WaitSt → Prop
  | checkDone (s : WaitSt) :
      s.phase = .checking → waitSatB s.notesToPress = true →
      WStepFg s { s with phase := .done }
  | checkWait (s : WaitSt) :
      s.phase = .checking → waitSatB s.notesToPress = false →
      WStepFg s { s with phase := .toWait }
  | enterWait (s : WaitSt) :
      s.phase = .toWait →
      WStepFg s { s with phase := .waiting }
  | wake (s : WaitSt) :
      s.phase = .waiting → s.wakePending = true →
      WStepFg s { s with phase := .checking, wakePending := false }

/-- Listener transitions, the `notes_to_press`-relevant branches of
`handle_midi_message` run atomically between two foreground steps: a NoteOn
for an expected key marks it `true`, sets the condvar boolean and calls
`notify_one` — which wakes a parked waiter but is lost when nobody is parked
yet; a NoteOff for an expected key marks it `false` and does not notify. -/
inductive WStepL : WaitSt → WaitSt → Prop
  | noteOn (s : WaitSt) (k : Nat) :
      (s.notesToPress.lookup k).isSome = true →
      WStepL s { s with
        notesToPress := alInsert k true s.notesToPress
        pressedOnce := k :: s.pressedOnce
        cvFlag := true
        wakePending := if s.phase = .waiting then true else s.wakePending }
  | noteOff (s : WaitSt) (k : Nat) :
      (s.notesToPress.lookup k).isSome = true →
      WStepL s { s with notesToPress := alInsert k false s.notesToPress }

/-- An interleaving step: either thread runs. -/
def WStep (s t : WaitSt) : Prop := WStepFg s t ∨ WStepL s t

/-- C6 failing interleaving, state 0: the foreground is about to test the
wait condition for the single expected key 60, not yet pressed. -/
def w0 : WaitSt :=
  { phase := .checking, notesToPress := [(60, false)], pressedOnce := [],
    wakePending := false, cvFlag := false }

/-- State 1: the test came out false; the map lock is released and the
foreground is heading into `condvar.wait`. -/
def w1 : WaitSt := { w0 with phase := .toWait }

/-- State 2: the listener delivered NoteOn(60) in the window before the wait:
key marked pressed, condvar boolean set, `notify_one` lost (nobody parked). -/
def w2 : WaitSt :=
  { phase := .toWait, notesToPress := [(60, true)], pressedOnce := [60],
    wakePending := false, cvFlag := true }

/-- State 3: the foreground parks in `condvar.wait`; no wakeup is pending. -/
def w3 : WaitSt := { w2 with phase := .waiting }

/-- A connection whose `play` always accepts. -/
def conTrue : Nat → Bool := fun _ => true

/-- A connection whose `play` always rejects (returns `false`). -/
def conFalse : Nat → Bool := fun _ => false

/-- Listener state for the C2 scenario: the practice track expects exactly
key 60, not yet pressed. -/
def cListener0 : ListenerSt :=
  { notesToPress := [(60, false)], notesPressed := [], ledData := allOffFrame,
    writes := [], cvFlag := false }

/-- A NoteOn for key 60 with velocity 0 on track 0 (C4 counterexample). -/
def cMsg40 : MidiEvt := { track := 0, channel := 0, message := .noteOn 60 0 }

/-- Learner state entering the C4 counterexample event: nothing expected,
fresh 176-cell buffer, accepting sink. -/
def cL4 : LSt := initLSt (TickerQ.new 96) conTrue

/-- Learner state entering the C3 witness run. -/
def cL3 : LSt := initLSt (TickerQ.new 96) conTrue

/-- First non-empty moment of the C3 witness run (a tempo event only). -/
def cM1 : Moment := { events := [.tempo 500000] }

/-- Second non-empty moment of the C3 witness run. -/
def cM2 : Moment := { events := [.tempo 600000] }

/-- One-moment sheet with a single in-range NoteOn (C7 example sheets). -/
def cSheet1 : List Moment :=
  [{ events := [.midi { track := 0, channel := 0, message := .noteOn 60 100 }] }]

/-- Listener state for the C10 witness: nothing expected, fresh buffer. -/
def cListenerC10 : ListenerSt :=
  { notesToPress := [], notesPressed := [], ledData := allOffFrame,
    writes := [], cvFlag := false }

/-- Player state for the C10 witness. -/
def cPStC10 : PSt := initPSt (TickerQ.new 96) conTrue

/-- Two tracks whose first NoteOn keys are 60 and 72 (C8 witness). -/
def cTracks : List (List TEKind) :=
  [[.midiK (.noteOn 60 100)], [.midiK (.noteOn 72 100)]]

/-- For keys at least 20 (and within the `u8` range) the wrapped subtraction
in `get_led_index` coincides with plain subtraction. -/
lemma get_led_index_eq_of_ge (key : Nat) (h20 : 20 ≤ key) (h255 : key ≤ 255) :
    get_led_index key = key * 2 - ledOffset key := by
  unfold get_led_index ledOffset USIZE
  split_ifs <;> omega

/-- For LED-safe keys the index addresses the 176-cell frame buffer. -/
lemma get_led_index_lt_of_safe (key : Nat) (h : keyLedSafe key) :
    get_led_index key < 176 := by
  obtain ⟨h20, h108⟩ := h
  unfold get_led_index ledOffset USIZE
  split_ifs <;> omega

/-- Overwriting every binding of `k` makes `lookup k` return the new value,
provided `k` was bound. -/
lemma lookup_overwrite (k : Nat) (v : Bool) :
    ∀ l : List (Nat × Bool), (l.lookup k).isSome = true →
      (l.map (fun p => if p.1 = k then (k, v) else p)).lookup k = some v := by
  intro l
  induction l with
  | nil => intro h; simp [List.lookup] at h
  | cons p rest ih =>
      intro h
      rcases p with ⟨a, b⟩
      simp only [List.map_cons]
      by_cases hp : a = k
      · subst hp
        rw [if_pos (show (a, b).1 = a from rfl)]
        simp [List.lookup]
      · rw [if_neg (fun hh => hp (by simpa using hh))]
        have hne2 : (k == a) = false := beq_eq_false_iff_ne.mpr (fun hh => hp hh.symm)
        simp only [List.lookup, hne2] at h ⊢
        exact ih h

/-- Lookup after a map insert returns the inserted value. -/
lemma alInsert_lookup (k : Nat) (v : Bool) (l : List (Nat × Bool)) :
    (alInsert k v l).lookup k = some v := by
  unfold alInsert
  split_ifs with h
  · exact lookup_overwrite k v l h
  · simp [List.lookup]

/-- An insert never empties the map. -/
lemma alInsert_ne_nil (k : Nat) (v : Bool) (l : List (Nat × Bool)) :
    alInsert k v l ≠ [] := by
  unfold alInsert
  split_ifs with h
  · intro hc
    rw [List.map_eq_nil_iff] at hc
    subst hc
    simp [List.lookup] at h
  · simp

/-- C5: for every key, `get_led_index(key)` equals `key*2 - offset` with the
per-band offsets 39 / 40 / 41 / 42 exactly as the spec states them (in the
same `usize` arithmetic the function runs in), and the four band boundaries
take the exact claimed values `55*2-39`, `56*2-40`, `92*2-41`, `93*2-42`. -/
theorem get_led_index_bands_c5 :
    (∀ key, get_led_index key = ledIndexSpecC5 key) ∧
    get_led_index 55 = 55 * 2 - 39 ∧
    get_led_index 56 = 56 * 2 - 40 ∧
    get_led_index 92 = 92 * 2 - 41 ∧
    get_led_index 93 = 93 * 2 - 42 := by
  refine ⟨fun key => ?_, by decide, by decide, by decide, by decide⟩
  unfold get_led_index ledIndexSpecC5 ledOffset ledOffsetSpecC5
  rfl

/-- C1: on a `Ticker` created with ticks-per-beat `P` (speed 1.0) and retuned
to tempo `T`, both the raw duration and the first `sleep_duration` call yield
exactly `floor(T/P * n) = T*n / P` microseconds; on a freshly created `Ticker`
(tempo unset) both are zero for every tick count. -/
theorem ticker_tempo_formula_c1 (T P n : Nat) (hP : 0 < P) :
    ((TickerQ.new P).changeTempo T).sleepDurationWithoutReadjustment n = T * n / P ∧
    (∀ e, (((TickerQ.new P).changeTempo T).sleepDuration n e).1 = T * n / P) ∧
    (∀ m, (TickerQ.new P).sleepDurationWithoutReadjustment m = 0) ∧
    (∀ m e, ((TickerQ.new P).sleepDuration m e).1 = 0) := by
  have h1 : ((TickerQ.new P).changeTempo T).sleepDurationWithoutReadjustment n
      = T * n / P := by
    unfold TickerQ.new TickerQ.changeTempo TickerQ.sleepDurationWithoutReadjustment
    simp only
    split_ifs with h
    · simp
    · have hz : T * n = 0 := by
        rcases Nat.eq_zero_or_pos (T * n) with h0 | hpos
        · exact h0
        · exact absurd ⟨by omega, by omega⟩ h
      rw [hz]
      simp
  have hfresh : ∀ m, (TickerQ.new P).sleepDurationWithoutReadjustment m = 0 := by
    intro m
    unfold TickerQ.new TickerQ.sleepDurationWithoutReadjustment
    simp
  refine ⟨h1, fun e => ?_, hfresh, fun m e => ?_⟩
  · unfold TickerQ.sleepDuration
    simp only [TickerQ.changeTempo, TickerQ.new]
    exact h1
  · unfold TickerQ.sleepDuration
    simp only [TickerQ.new]
    exact hfresh m

/-- Witness for C1 at `T = 500000`, `P = 96`, `n = 3`. -/
theorem ticker_tempo_formula_c1_witness :
    0 < 96 ∧
    ((TickerQ.new 96).changeTempo 500000).sleepDurationWithoutReadjustment 3 = 15625 := by
  refine ⟨by decide, ?_⟩
  have h := (ticker_tempo_formula_c1 500000 96 3 (by decide)).1
  rw [h]

/-- The intermediate `x` of `velocityrainbow_color` is just the integer
quotient `velocity / 127` (as a rational), for any exponential model:
`curve / 100` is the integer 0, so `powercurve` is the identity, and
`scale / 100` is the integer 1. -/
lemma velocityrainbow_x_eq (expf : Rat → Rat) (v : Nat) :
    velocityrainbow_x expf v = ((v / 127 : Nat) : Rat) := by
  have h0 : ((0 : Int) / 100 : Int) = 0 := by decide
  have h1 : ((120 : Int) / 100 : Int) = 1 := by decide
  unfold velocityrainbow_x powercurve
  rw [h0, h1]
  norm_num

/-- C9: `velocityrainbow_color` divides the `u8` velocity by 127 with integer
division before any scaling, so every velocity 0..=126 produces the constant
colormap index 210 and hence the constant color `RAINBOW_FAST_LED[210]`;
among the valid velocities only 127 yields a different index, 211 (and a
different color).  Holds for any model `expf` of the exponential, which the
`curve = 0` path never evaluates. -/
theorem velocityrainbow_constant_c9 (expf : Rat → Rat) (v : Nat) (hv : v ≤ 127) :
    (v ≤ 126 →
      velocityrainbow_index expf v = 210 ∧
      velocityrainbow_color expf v = RAINBOW_FAST_LED.getD 210 (0, 0, 0)) ∧
    (v = 127 →
      velocityrainbow_index expf v = 211 ∧
      velocityrainbow_color expf v = RAINBOW_FAST_LED.getD 211 (0, 0, 0)) ∧
    RAINBOW_FAST_LED.getD 210 (0, 0, 0) ≠ RAINBOW_FAST_LED.getD 211 (0, 0, 0) := by
  refine ⟨?_, ?_, by decide⟩
  · intro h126
    have hdiv : v / 127 = 0 := Nat.div_eq_of_lt (by omega)
    have hidx : velocityrainbow_index expf v = 210 := by
      unfold velocityrainbow_index
      rw [velocityrainbow_x_eq, hdiv]
      norm_num [ratTrunc]
    refine ⟨hidx, ?_⟩
    unfold velocityrainbow_color
    rw [hidx]
    rfl
  · intro h127
    subst h127
    have hdiv : 127 / 127 = 1 := by decide
    have hidx : velocityrainbow_index expf 127 = 211 := by
      unfold velocityrainbow_index
      rw [velocityrainbow_x_eq, hdiv]
      norm_num [ratTrunc]
    refine ⟨hidx, ?_⟩
    unfold velocityrainbow_color
    rw [hidx]
    rfl

/-- Witness for C9 at velocity 100 (and the boundary 127). -/
theorem velocityrainbow_constant_c9_witness :
    (100 ≤ 127 ∧ velocityrainbow_index (fun q => q) 100 = 210) ∧
    (127 ≤ 127 ∧ velocityrainbow_index (fun q => q) 127 = 211) := by
  constructor
  · exact ⟨by decide,
      ((velocityrainbow_constant_c9 (fun q => q) 100 (by decide)).1 (by decide)).1⟩
  · exact ⟨by decide,
      (((velocityrainbow_constant_c9 (fun q => q) 127 (by decide)).2.1 rfl)).1⟩

/-- C8: hand classification.  With fewer than two tracks every label maps to
track 0.  Otherwise, among the last two tracks, the one whose first NoteOn
key (0 when it has none) is strictly higher is labelled right hand and the
other left hand, in either order; and the hand selector "both"
(`hand_no = 2`) yields practice track 0. -/
theorem convert_hand_classification_c8 (tracks : List (List TEKind)) (hand_no : Nat) :
    (tracks.length < 2 → convert_hand_no_to_track tracks hand_no = (0, 0, 0)) ∧
    (2 ≤ tracks.length →
      (firstNoteOnKey (tracks.getD (tracks.length - 2) []) <
          firstNoteOnKey (tracks.getD (tracks.length - 1) []) →
        (convert_hand_no_to_track tracks hand_no).1 = tracks.length - 1 ∧
        (convert_hand_no_to_track tracks hand_no).2.1 = tracks.length - 2) ∧
      (firstNoteOnKey (tracks.getD (tracks.length - 1) []) <
          firstNoteOnKey (tracks.getD (tracks.length - 2) []) →
        (convert_hand_no_to_track tracks hand_no).1 = tracks.length - 2 ∧
        (convert_hand_no_to_track tracks hand_no).2.1 = tracks.length - 1) ∧
      (hand_no = 2 → (convert_hand_no_to_track tracks hand_no).2.2 = 0)) := by
  constructor
  · intro hlt
    unfold convert_hand_no_to_track
    rw [if_pos hlt]
  · intro hge
    have hnlt : ¬tracks.length < 2 := by omega
    refine ⟨?_, ?_, ?_⟩
    · intro hcmp
      unfold convert_hand_no_to_track
      rw [if_neg hnlt]
      simp only [if_pos hcmp]
      exact ⟨trivial, trivial⟩
    · intro hcmp
      have hnc : ¬firstNoteOnKey (tracks.getD (tracks.length - 2) []) <
          firstNoteOnKey (tracks.getD (tracks.length - 1) []) := by omega
      unfold convert_hand_no_to_track
      rw [if_neg hnlt]
      simp only [if_neg hnc]
      exact ⟨trivial, trivial⟩
    · intro h2
      subst h2
      unfold convert_hand_no_to_track
      rw [if_neg hnlt]
      simp only
      split_ifs <;> simp_all

/-- Witness for C8: two tracks with first NoteOn keys 60 and 72; the key-72
track (index 1) is the right hand, and selector "both" learns track 0. -/
theorem convert_hand_classification_c8_witness :
    2 ≤ cTracks.length ∧
    (convert_hand_no_to_track cTracks 2).1 = 1 ∧
    (convert_hand_no_to_track cTracks 2).2.1 = 0 ∧
    (convert_hand_no_to_track cTracks 2).2.2 = 0 := by
  have h := (convert_hand_classification_c8 cTracks 2).2 (by decide)
  have hfirst := h.1 (by decide)
  exact ⟨by decide, hfirst.1, hfirst.2, h.2.2 rfl⟩

/-- For keys up to 19 the `usize` subtraction in `get_led_index` underflows:
the result wraps to `2^64 - (39 - 2*key)`, far beyond the 176-cell buffer. -/
lemma get_led_index_big_of_underflow (key : Nat) (h : key ≤ 19) :
    get_led_index key = USIZE - (39 - key * 2) ∧ 176 ≤ get_led_index key := by
  unfold get_led_index ledOffset USIZE
  rw [if_pos (show key < 56 by omega)]
  constructor <;> omega

/-- C6: a concrete interleaving of the listener against `wait_for_keys`
refutes the no-missed-wakeup guarantee: from `w0` (one expected key, 60), the
foreground tests the predicate (false, step to `w1`), the listener delivers
NoteOn(60) — marking the key pressed and issuing a `notify_one` that is lost
because nobody is parked (`w2`) — and the foreground then parks (`w3`).  In
`w3` the mapping is fully satisfied and key 60 has transitioned to pressed,
yet no foreground transition is enabled: the wake step requires a pending
notification, so without a (never-guaranteed) spurious wakeup the loop is
blocked forever. -/
theorem learner_wait_lost_wakeup_c6 :
    WStep w0 w1 ∧ WStep w1 w2 ∧ WStep w2 w3 ∧
    waitSatB w3.notesToPress = true ∧
    (∀ k, (w3.notesToPress.lookup k).isSome = true → k ∈ w3.pressedOnce) ∧
    w3.phase = .waiting ∧
    (∀ s, WStepFg w3 s → False) := by
  refine ⟨?_, ?_, ?_, by decide, ?_, rfl, ?_⟩
  · exact Or.inl (WStepFg.checkWait w0 rfl (by decide))
  · exact Or.inr (WStepL.noteOn w1 60 (by decide))
  · exact Or.inl (WStepFg.enterWait w2 rfl)
  · intro k hk
    cases hbeq : (k == 60) with
    | true =>
        have : k = 60 := by simpa using hbeq
        subst this
        decide
    | false =>
        rw [show w3.notesToPress = [(60, true)] from rfl] at hk
        simp only [List.lookup, hbeq] at hk
        cases hk
  · intro s h
    cases h with
    | checkDone h1 h2 => exact absurd h1 (by decide)
    | checkWait h1 h2 => exact absurd h1 (by decide)
    | enterWait h1 => exact absurd h1 (by decide)
    | wake h1 h2 => exact absurd h2 (by decide)

/-- C2 counterexample: with key 60 expected, the wait predicate does NOT
remain satisfied once the listener processes NoteOff(60): the claim that
satisfaction survives the NoteOff is false on the concrete scenario state. -/
theorem learner_hold_counterexample_c2 :
    ¬ ((handleMidiMessage 144 60 cListener0).bind
        (fun s => handleMidiMessage 128 60 s)).map
          (fun s => waitSatB s.notesToPress) = some true := by
  decide

/-- C2 (amended): with the practice track expecting exactly key 60, the wait
predicate is satisfied as of the listener processing NoteOn(60); but a
subsequent NoteOff(60) marks the key `false` again, so the predicate is no
longer satisfied afterwards — the foreground loop avoids blocking only if its
predicate check runs between the NoteOn and the NoteOff. -/
theorem learner_first_press_predicate_c2 (st : ListenerSt)
    (h : st.notesToPress = [(60, false)]) :
    (handleMidiMessage 144 60 st).map (fun s => waitSatB s.notesToPress) = some true ∧
    ((handleMidiMessage 144 60 st).bind
      (fun s => handleMidiMessage 128 60 s)).map
        (fun s => waitSatB s.notesToPress) = some false := by
  obtain ⟨ntp, np, ld, w, cf⟩ := st
  dsimp only at h
  subst h
  exact ⟨rfl, rfl⟩

/-- Witness for the amended C2 on the concrete scenario state. -/
theorem learner_first_press_predicate_c2_witness :
    (handleMidiMessage 144 60 cListener0).map
      (fun s => waitSatB s.notesToPress) = some true ∧
    ((handleMidiMessage 144 60 cListener0).bind
      (fun s => handleMidiMessage 128 60 s)).map
        (fun s => waitSatB s.notesToPress) = some false :=
  learner_first_press_predicate_c2 cListener0 rfl

/-- C10: `get_led_index` computes `key*2 - offset` in `usize` arithmetic, so
for every key 0..=19 the subtraction underflows (`key*2 < 39`, the offset of
the lowest band) and wraps to `2^64 - (39 - 2*key)`; for keys at least 20 it
is well defined (no wrap).  Both call sites pass raw incoming keys unguarded:
the listener callback computes the index for every message and panics on the
resulting out-of-bounds LED write for an unexpected key below 20, and
`Player::play` panics likewise on any NoteOn below 20. -/
theorem get_led_index_underflow_c10 :
    (∀ key, key ≤ 19 → key * 2 < ledOffset key ∧
      get_led_index key = USIZE - (39 - key * 2)) ∧
    (∀ key, 20 ≤ key → key ≤ 255 →
      ledOffset key ≤ key * 2 ∧ get_led_index key = key * 2 - ledOffset key) ∧
    (∀ st key, key ≤ 19 → (st.notesToPress.lookup key).isSome = false →
      st.ledData.length = 176 → handleMidiMessage 144 key st = none) ∧
    (∀ (st : PSt) tr ch key vel, key ≤ 19 → st.ledData.length = 176 →
      playEvent st (.midi { track := tr, channel := ch, message := .noteOn key vel })
        = .panic) := by
  refine ⟨?_, ?_, ?_, ?_⟩
  · intro key h
    refine ⟨?_, (get_led_index_big_of_underflow key h).1⟩
    unfold ledOffset
    rw [if_pos (show key < 56 by omega)]
    omega
  · intro key h20 h255
    refine ⟨?_, get_led_index_eq_of_ge key h20 h255⟩
    unfold ledOffset
    split_ifs <;> omega
  · intro st key hk hcon hlen
    have hbig := (get_led_index_big_of_underflow key hk).2
    have hsl : setLed st.ledData (get_led_index key) (1, 0, 0) = none := by
      unfold setLed
      rw [hlen]
      exact if_neg (by omega)
    unfold handleMidiMessage
    rw [if_pos (show (144 : Nat) &&& 240 = 144 by decide)]
    rw [if_neg (show ¬(({ st with notesPressed := hsInsert key st.notesPressed }
      : ListenerSt).notesToPress.lookup key).isSome = true by simp [hcon])]
    rw [show ({ st with notesPressed := hsInsert key st.notesPressed }
      : ListenerSt).ledData = st.ledData from rfl, hsl]
  · intro st tr ch key vel hk hlen
    have hbig := (get_led_index_big_of_underflow key hk).2
    have hsl : ∀ v : RGB, setLed st.ledData (get_led_index key) v = none := by
      intro v
      unfold setLed
      rw [hlen]
      exact if_neg (by omega)
    unfold playEvent
    dsimp only
    rw [hsl]

/-- Witness for C10 at key 0: the wrapped index, the unguarded listener
panic, and the unguarded `Player::play` panic, on concrete states. -/
theorem get_led_index_underflow_c10_witness :
    ((0 : Nat) ≤ 19 ∧ get_led_index 0 = USIZE - (39 - 0 * 2)) ∧
    (20 ≤ (20 : Nat) ∧ (20 : Nat) ≤ 255 ∧ get_led_index 20 = 20 * 2 - ledOffset 20) ∧
    ((cListenerC10.notesToPress.lookup 0).isSome = false ∧
      cListenerC10.ledData.length = 176 ∧
      handleMidiMessage 144 0 cListenerC10 = none) ∧
    (cPStC10.ledData.length = 176 ∧
      playEvent cPStC10 (.midi { track := 0, channel := 0, message := .noteOn 0 100 })
        = .panic) := by
  have h10 := get_led_index_underflow_c10
  refine ⟨⟨by decide, (h10.1 0 (by decide)).2⟩,
    ⟨by decide, by decide, (h10.2.1 20 (by decide) (by decide)).2⟩,
    ⟨by decide, by decide, h10.2.2.1 cListenerC10 0 (by decide) (by decide) (by decide)⟩,
    ⟨by decide, h10.2.2.2 cPStC10 0 0 0 100 (by decide) (by decide)⟩⟩

/-- `lForward` only touches `forwarded` and `conIdx`. -/
lemma lForward_ok_or_reject_frame {s s2 : LSt} {msg : MidiEvt}
    (h : lForward s msg = .ok s2 ∨ lForward s msg = .reject s2) :
    s2.sleeps = s.sleeps ∧ s2.counter = s.counter ∧ s2.processTime = s.processTime ∧
    s2.notesToPress = s.notesToPress ∧ s2.ticker = s.ticker := by
  unfold lForward at h
  dsimp only at h
  rcases h with h | h <;> split at h <;> cases h <;> exact ⟨rfl, rfl, rfl, rfl, rfl⟩

/-- Whatever the sink answers, `lForward` appends the event to the forwarded
log. -/
lemma lForward_forwarded (s : LSt) (msg : MidiEvt) :
    ∃ s1, (lForward s msg = .ok s1 ∨ lForward s msg = .reject s1) ∧
      s1.forwarded = s.forwarded ++ [msg] := by
  unfold lForward
  cases h : s.con s.conIdx
  · exact ⟨_, Or.inr (by rw [if_neg (by simp)]), rfl⟩
  · exact ⟨_, Or.inl (by rw [if_pos rfl]), rfl⟩

/-- A successfully processed event never touches the sleep log, the tick
counter or the drift-compensation value. -/
lemma learnEvent_ok_frame {rt lt : Nat} {s s2 : LSt} {e : Event}
    (h : learnEvent rt lt s e = .ok s2) :
    s2.sleeps = s.sleeps ∧ s2.counter = s.counter ∧ s2.processTime = s.processTime := by
  cases e with
  | tempo v =>
      unfold learnEvent at h
      dsimp only at h
      cases h
      exact ⟨rfl, rfl, rfl⟩
  | midi msg =>
      obtain ⟨tr, ch, m⟩ := msg
      cases m with
      | noteOn key vel =>
          unfold learnEvent at h
          dsimp only at h
          split at h
          · cases h
          · split_ifs at h
            · cases h
              exact ⟨rfl, rfl, rfl⟩
            · have hf := lForward_ok_or_reject_frame (Or.inl h)
              exact ⟨hf.1, hf.2.1, hf.2.2.1⟩
      | noteOff key vel =>
          unfold learnEvent at h
          dsimp only at h
          split at h
          · cases h
          · split_ifs at h
            · cases h
              exact ⟨rfl, rfl, rfl⟩
            · have hf := lForward_ok_or_reject_frame (Or.inl h)
              exact ⟨hf.1, hf.2.1, hf.2.2.1⟩
      | otherMsg =>
          unfold learnEvent at h
          dsimp only at h
          have hf := lForward_ok_or_reject_frame (Or.inl h)
          exact ⟨hf.1, hf.2.1, hf.2.2.1⟩

/-- The event loop preserves the same fields. -/
lemma learnEvents_ok_frame {rt lt : Nat} :
    ∀ (es : List Event) (s s2 : LSt), learnEvents rt lt s es = .ok s2 →
      s2.sleeps = s.sleeps ∧ s2.counter = s.counter ∧ s2.processTime = s.processTime := by
  intro es
  induction es with
  | nil =>
      intro s s2 h
      cases h
      exact ⟨rfl, rfl, rfl⟩
  | cons e rest ih =>
      intro s s2 h
      unfold learnEvents at h
      cases hres : learnEvent rt lt s e with
      | ok st1 =>
          rw [hres] at h
          dsimp only at h
          have h1 := learnEvent_ok_frame hres
          have h2 := ih _ _ h
          exact ⟨h2.1.trans h1.1, h2.2.1.trans h1.2.1, h2.2.2.trans h1.2.2⟩
      | reject st1 =>
          rw [hres] at h
          dsimp only at h
          cases h
      | panic =>
          rw [hres] at h
          dsimp only at h
          cases h

/-- A run over empty moments only advances the tick counter. -/
lemma learnRun_empty_frame {rt lt : Nat} :
    ∀ (gap : List (Moment × Nat)) (s sg : LSt),
      (∀ p ∈ gap, (Prod.fst p).isEmpty = true) →
      learnRun rt lt s gap = .ok sg →
      sg.sleeps = s.sleeps ∧ sg.counter = s.counter + gap.length ∧
      sg.processTime = s.processTime ∧ sg.notesToPress = s.notesToPress ∧
      sg.ticker = s.ticker := by
  intro gap
  induction gap with
  | nil =>
      intro s sg _ h
      cases h
      exact ⟨rfl, by simp, rfl, rfl, rfl⟩
  | cons p rest ih =>
      intro s sg hall h
      obtain ⟨m, e⟩ := p
      have hm : m.events.isEmpty = true := hall (m, e) (by simp)
      have hstep : learnMoment rt lt s m e = .ok { s with counter := s.counter + 1 } := by
        unfold learnMoment
        rw [if_pos hm]
      unfold learnRun at h
      rw [hstep] at h
      have hr := ih _ _ (fun q hq => hall q (by simp [hq])) h
      refine ⟨hr.1, ?_, hr.2.2.1, hr.2.2.2.1, hr.2.2.2.2⟩
      have := hr.2.1
      dsimp only at this
      simp only [this, List.length_cons]
      omega

/-- Anatomy of a successful non-empty `learnMoment`: the sleep that was
performed is logged with the incoming counter and process time, and the
resulting state has the oracle elapsed time recorded, the expected map
cleared, and the counter restarted at 1. -/
lemma learnMoment_ok_nonempty {rt lt : Nat} {s s2 : LSt} {m : Moment} {e : Nat}
    (hm : m.events.isEmpty = false) (h : learnMoment rt lt s m e = .ok s2) :
    s2.processTime = e ∧ s2.notesToPress = [] ∧ s2.counter = 1 ∧
    s2.sleeps = s.sleeps ++
      [(s.counter, s.processTime, sleepWithAdjustment s.ticker s.counter s.processTime)] := by
  unfold learnMoment at h
  rw [if_neg (by simp [hm])] at h
  dsimp only at h
  split at h
  · rename_i st2x heq
    cases h
    have hf := learnEvents_ok_frame _ _ _ heq
    have hc : st2x.counter = 0 := hf.2.1
    refine ⟨rfl, rfl, ?_, hf.1⟩
    dsimp only
    omega
  · rename_i heq
    exact absurd h (heq s2)

/-- C3: after a non-empty moment is processed and its wait satisfied, the
elapsed wall-clock time is recorded as `process_time` and the expected map is
cleared; across any run of empty moments these survive unchanged, and the
next non-empty moment logs a sleep whose drift-compensation input is exactly
that elapsed time, the duration slept being the raw tick duration minus it
(clamped at zero).  The timer sleep itself is the spec-modelled
`sleep_with_adjustment`. -/
theorem learner_drift_compensation_c3 (rt lt : Nat) (st : LSt) (m1 m2 : Moment)
    (e1 e2 : Nat) (gap : List (Moment × Nat)) (st1 stg st2 : LSt)
    (h1 : m1.isEmpty = false) (h2 : m2.isEmpty = false)
    (hgap : ∀ p ∈ gap, (Prod.fst p).isEmpty = true)
    (hs1 : learnMoment rt lt st m1 e1 = .ok st1)
    (hsg : learnRun rt lt st1 gap = .ok stg)
    (hs2 : learnMoment rt lt stg m2 e2 = .ok st2) :
    st1.processTime = e1 ∧ st1.notesToPress = [] ∧
    stg.processTime = e1 ∧ stg.notesToPress = [] ∧
    st2.sleeps = stg.sleeps ++
      [(stg.counter, e1, sleepWithAdjustment stg.ticker stg.counter e1)] ∧
    sleepWithAdjustment stg.ticker stg.counter e1 =
      stg.ticker.sleepDurationWithoutReadjustment stg.counter - e1 := by
  have hm1 := learnMoment_ok_nonempty h1 hs1
  have hg := learnRun_empty_frame gap st1 stg hgap hsg
  have hm2 := learnMoment_ok_nonempty h2 hs2
  have hpt : stg.processTime = e1 := hg.2.2.1.trans hm1.1
  have hsl := hm2.2.2.2
  rw [hpt] at hsl
  exact ⟨hm1.1, hm1.2.1, hpt, hg.2.2.2.1.trans hm1.2.1, hsl, rfl⟩

/-- Witness for C3 on a concrete two-moment tempo-only run with elapsed
times 7 and 9. -/
theorem learner_drift_compensation_c3_witness :
    cM1.isEmpty = false ∧ cM2.isEmpty = false ∧
    ∃ st1 st2, learnMoment 0 0 cL3 cM1 7 = .ok st1 ∧
      learnMoment 0 0 st1 cM2 9 = .ok st2 ∧
      st1.processTime = 7 ∧ st1.notesToPress = [] ∧
      st2.sleeps = st1.sleeps ++
        [(st1.counter, 7, sleepWithAdjustment st1.ticker st1.counter 7)] := by
  refine ⟨by decide, by decide, _, _, rfl, rfl, ?_⟩
  have h := learner_drift_compensation_c3 0 0 cL3 cM1 cM2 7 9 [] _ _ _
    (by decide) (by decide) (by simp) rfl rfl rfl
  exact ⟨h.1, h.2.1, h.2.2.2.2.1⟩

/-- C4 counterexample: a NoteOn for key 60 with velocity 0 on the practice
track (track 0) is forwarded to the sink and NOT inserted into the expected
map, contradicting the claim that every practice-track NoteOn in range is
suppressed and inserted. -/
theorem learner_vel0_counterexample_c4 :
    ∃ st1, learnEvent 0 0 cL4 (.midi cMsg40) = .ok st1 ∧
      st1.forwarded = [cMsg40] ∧ st1.forwarded ≠ cL4.forwarded ∧
      st1.notesToPress.lookup 60 = none := by
  refine ⟨_, rfl, ?_, ?_, ?_⟩ <;> decide

/-- C4 (amended): in `Learner::learn`, a NoteOn with NON-ZERO velocity on the
practice track with key in 36..=96 is withheld from the sink and its key is
inserted into the expected map as `false`; a NoteOn failing that test —
zero velocity, other track, or out-of-range key — is forwarded to the sink
(provided its key is LED-addressable, 20..=108; otherwise the LED write
preceding the forward panics, cf. C10). -/
theorem learner_practice_suppression_c4 (rt lt : Nat) (st : LSt)
    (tr ch key vel : Nat) (hlen : st.ledData.length = 176) :
    ((vel ≠ 0 ∧ tr = lt ∧ 36 ≤ key ∧ key ≤ 96) →
      ∃ st1, learnEvent rt lt st
          (.midi { track := tr, channel := ch, message := .noteOn key vel }) = .ok st1 ∧
        st1.forwarded = st.forwarded ∧ st1.conIdx = st.conIdx ∧
        st1.notesToPress.lookup key = some false) ∧
    (¬(vel ≠ 0 ∧ tr = lt ∧ 36 ≤ key ∧ key ≤ 96) → keyLedSafe key →
      ∃ st1, (learnEvent rt lt st
          (.midi { track := tr, channel := ch, message := .noteOn key vel }) = .ok st1 ∨
        learnEvent rt lt st
          (.midi { track := tr, channel := ch, message := .noteOn key vel }) = .reject st1) ∧
        st1.forwarded = st.forwarded ++
          [{ track := tr, channel := ch, message := .noteOn key vel }]) := by
  constructor
  · rintro ⟨hvel, htr, hk36, hk96⟩
    have hidx : get_led_index key < st.ledData.length := by
      rw [hlen]
      exact get_led_index_lt_of_safe key ⟨by omega, by omega⟩
    have hsl : ∀ v : RGB, setLed st.ledData (get_led_index key) v =
        some (st.ledData.set (get_led_index key) v) := fun v => by
      unfold setLed
      rw [if_pos hidx]
    unfold learnEvent
    dsimp only
    rw [hsl]
    dsimp only
    rw [if_pos (show vel ≠ 0 ∧ tr = lt ∧ 36 ≤ key ∧ key ≤ 96 from
      ⟨hvel, htr, hk36, hk96⟩)]
    exact ⟨_, rfl, rfl, rfl, alInsert_lookup key false _⟩
  · intro hncond hsafe
    have hidx : get_led_index key < st.ledData.length := by
      rw [hlen]
      exact get_led_index_lt_of_safe key hsafe
    have hsl : ∀ v : RGB, setLed st.ledData (get_led_index key) v =
        some (st.ledData.set (get_led_index key) v) := fun v => by
      unfold setLed
      rw [if_pos hidx]
    unfold learnEvent
    dsimp only
    rw [hsl]
    dsimp only
    rw [if_neg hncond]
    exact lForward_forwarded _ _

/-- Witness for the amended C4: key 60 at velocity 100 on the practice track
is suppressed and expected; the same key at velocity 0 is forwarded. -/
theorem learner_practice_suppression_c4_witness :
    cL4.ledData.length = 176 ∧
    (∃ st1, learnEvent 0 0 cL4
        (.midi { track := 0, channel := 0, message := .noteOn 60 100 }) = .ok st1 ∧
      st1.forwarded = cL4.forwarded ∧ st1.conIdx = cL4.conIdx ∧
      st1.notesToPress.lookup 60 = some false) ∧
    (∃ st1, (learnEvent 0 0 cL4
        (.midi { track := 0, channel := 0, message := .noteOn 60 0 }) = .ok st1 ∨
      learnEvent 0 0 cL4
        (.midi { track := 0, channel := 0, message := .noteOn 60 0 }) = .reject st1) ∧
      st1.forwarded = cL4.forwarded ++
        [{ track := 0, channel := 0, message := .noteOn 60 0 }]) := by
  refine ⟨by decide, ?_, ?_⟩
  · exact (learner_practice_suppression_c4 0 0 cL4 0 0 60 100 (by decide)).1
      ⟨by decide, rfl, by decide, by decide⟩
  · exact (learner_practice_suppression_c4 0 0 cL4 0 0 60 0 (by decide)).2
      (by simp) (by decide)

/-- A sink acceptance: `pForward` returns `ok` exactly when the response is
`true`; connection and LED buffer are untouched. -/
lemma pForward_ok {s s2 : PSt} {msg : MidiEvt} (h : pForward s msg = .ok s2) :
    s2.con = s.con ∧ s2.ledData = s.ledData ∧ s.con s.conIdx = true := by
  unfold pForward at h
  dsimp only at h
  split_ifs at h with hr
  cases h
  exact ⟨rfl, rfl, hr⟩

/-- A sink rejection: the response consumed was `false`, and the rejecting
call is recorded at `conIdx - 1`. -/
lemma pForward_reject {s s2 : PSt} {msg : MidiEvt} (h : pForward s msg = .reject s2) :
    s2.con = s.con ∧ s2.conIdx = s.conIdx + 1 ∧ s.con s.conIdx = false := by
  unfold pForward at h
  dsimp only at h
  split_ifs at h with hr
  cases h
  exact ⟨rfl, rfl, by simpa using hr⟩

/-- `setLed` succeeds only in bounds, returning an equal-length buffer. -/
lemma setLed_some_inv {data d : List RGB} {i : Nat} {v : RGB}
    (h : setLed data i v = some d) : d.length = data.length := by
  unfold setLed at h
  split_ifs at h
  cases h
  exact List.length_set data i v

/-- A successfully played event preserves the connection and the LED buffer
length. -/
lemma playEvent_ok_inv {s s2 : PSt} {e : Event} (h : playEvent s e = .ok s2) :
    s2.con = s.con ∧ s2.ledData.length = s.ledData.length := by
  cases e with
  | tempo v =>
      unfold playEvent at h
      dsimp only at h
      cases h
      exact ⟨rfl, rfl⟩
  | midi msg =>
      obtain ⟨tr, ch, m⟩ := msg
      cases m with
      | noteOn key vel =>
          unfold playEvent at h
          dsimp only at h
          split at h
          · cases h
          · rename_i d heq
            have hlen := setLed_some_inv heq
            have hf := pForward_ok h
            exact ⟨hf.1, by simpa using hf.2.1 ▸ hlen⟩
      | noteOff key vel =>
          unfold playEvent at h
          dsimp only at h
          split at h
          · cases h
          · rename_i d heq
            have hlen := setLed_some_inv heq
            have hf := pForward_ok h
            exact ⟨hf.1, by simpa using hf.2.1 ▸ hlen⟩
      | otherMsg =>
          unfold playEvent at h
          dsimp only at h
          have hf := pForward_ok h
          exact ⟨hf.1, by simp [hf.2.1]⟩

/-- A rejected event: the connection is unchanged and the response consumed
right before returning was `false`. -/
lemma playEvent_reject_inv {s s2 : PSt} {e : Event} (h : playEvent s e = .reject s2) :
    s2.con = s.con ∧ s2.con (s2.conIdx - 1) = false := by
  cases e with
  | tempo v =>
      unfold playEvent at h
      dsimp only at h
      cases h
  | midi msg =>
      obtain ⟨tr, ch, m⟩ := msg
      cases m with
      | noteOn key vel =>
          unfold playEvent at h
          dsimp only at h
          split at h
          · cases h
          · rename_i d heq
            have hf := pForward_reject h
            refine ⟨hf.1, ?_⟩
            rw [hf.1, hf.2.1]
            simpa using hf.2.2
      | noteOff key vel =>
          unfold playEvent at h
          dsimp only at h
          split at h
          · cases h
          · rename_i d heq
            have hf := pForward_reject h
            refine ⟨hf.1, ?_⟩
            rw [hf.1, hf.2.1]
            simpa using hf.2.2
      | otherMsg =>
          unfold playEvent at h
          dsimp only at h
          have hf := pForward_reject h
          refine ⟨hf.1, ?_⟩
          rw [hf.1, hf.2.1]
          simpa using hf.2.2

/-- Under an always-accepting sink, a safe event makes progress (no panic,
no rejection). -/
lemma playEvent_progress {s : PSt} {e : Event} (hcon : ∀ n, s.con n = true)
    (hsafe : eventKeyOk e = true) (hlen : s.ledData.length = 176) :
    ∃ s2, playEvent s e = .ok s2 := by
  cases e with
  | tempo v => exact ⟨_, rfl⟩
  | midi msg =>
      obtain ⟨tr, ch, m⟩ := msg
      cases m with
      | noteOn key vel =>
          have hkey : keyLedSafe key := by
            have := hsafe
            unfold eventKeyOk at this
            exact of_decide_eq_true this
          have hidx : get_led_index key < s.ledData.length := by
            rw [hlen]
            exact get_led_index_lt_of_safe key hkey
          have hsl : ∀ v2 : RGB, setLed s.ledData (get_led_index key) v2 =
              some (s.ledData.set (get_led_index key) v2) := fun v2 => by
            unfold setLed
            rw [if_pos hidx]
          unfold playEvent
          dsimp only
          rw [hsl]
          dsimp only
          unfold pForward
          dsimp only
          rw [if_pos (hcon _)]
          exact ⟨_, rfl⟩
      | noteOff key vel =>
          have hkey : keyLedSafe key := by
            have := hsafe
            unfold eventKeyOk at this
            exact of_decide_eq_true this
          have hidx : get_led_index key < s.ledData.length := by
            rw [hlen]
            exact get_led_index_lt_of_safe key hkey
          have hsl : ∀ v2 : RGB, setLed s.ledData (get_led_index key) v2 =
              some (s.ledData.set (get_led_index key) v2) := fun v2 => by
            unfold setLed
            rw [if_pos hidx]
          unfold playEvent
          dsimp only
          rw [hsl]
          dsimp only
          unfold pForward
          dsimp only
          rw [if_pos (hcon _)]
          exact ⟨_, rfl⟩
      | otherMsg =>
          unfold playEvent
          dsimp only
          unfold pForward
          dsimp only
          rw [if_pos (hcon _)]
          exact ⟨_, rfl⟩

/-- The inner event loop of `Player::play`: `ok` preserves connection and
buffer length. -/
lemma playEvents_ok_inv :
    ∀ (es : List Event) (s s2 : PSt), playEvents s es = .ok s2 →
      s2.con = s.con ∧ s2.ledData.length = s.ledData.length := by
  intro es
  induction es with
  | nil =>
      intro s s2 h
      cases h
      exact ⟨rfl, rfl⟩
  | cons e rest ih =>
      intro s s2 h
      unfold playEvents at h
      cases hres : playEvent s e with
      | ok st1 =>
          rw [hres] at h
          dsimp only at h
          have h1 := playEvent_ok_inv hres
          have h2 := ih _ _ h
          exact ⟨h2.1.trans h1.1, h2.2.trans h1.2⟩
      | reject st1 =>
          rw [hres] at h
          dsimp only at h
          cases h
      | panic =>
          rw [hres] at h
          dsimp only at h
          cases h

/-- The inner event loop: a rejection keeps the connection and pinpoints a
`false` response. -/
lemma playEvents_reject_inv :
    ∀ (es : List Event) (s s2 : PSt), playEvents s es = .reject s2 →
      s2.con = s.con ∧ s2.con (s2.conIdx - 1) = false := by
  intro es
  induction es with
  | nil =>
      intro s s2 h
      cases h
  | cons e rest ih =>
      intro s s2 h
      unfold playEvents at h
      cases hres : playEvent s e with
      | ok st1 =>
          rw [hres] at h
          dsimp only at h
          have h1 := playEvent_ok_inv hres
          have h2 := ih _ _ h
          exact ⟨h2.1.trans h1.1, h2.2⟩
      | reject st1 =>
          rw [hres] at h
          dsimp only at h
          cases h
          exact playEvent_reject_inv hres
      | panic =>
          rw [hres] at h
          dsimp only at h
          cases h

/-- The inner event loop makes progress on safe events under an accepting
sink. -/
lemma playEvents_progress :
    ∀ (es : List Event) (s : PSt), (∀ n, s.con n = true) →
      es.all eventKeyOk = true → s.ledData.length = 176 →
      ∃ s2, playEvents s es = .ok s2 := by
  intro es
  induction es with
  | nil => exact fun s _ _ _ => ⟨s, rfl⟩
  | cons e rest ih =>
      intro s hcon hsafe hlen
      have hsafe1 : eventKeyOk e = true := by
        simp [List.all_cons] at hsafe
        exact hsafe.1
      have hsafer : rest.all eventKeyOk = true := by
        simp [List.all_cons] at hsafe
        simpa using hsafe.2
      obtain ⟨s1, hs1⟩ := playEvent_progress hcon hsafe1 hlen
      have hinv := playEvent_ok_inv hs1
      obtain ⟨s2, hs2⟩ := ih s1 (by rw [hinv.1]; exact hcon) hsafer (hinv.2.trans hlen)
      refine ⟨s2, ?_⟩
      unfold playEvents
      rw [hs1]
      dsimp only
      exact hs2

/-- One moment of `Player::play`: `ok` preserves connection and buffer
length. -/
lemma playMoment_ok_inv {s s2 : PSt} {m : Moment} (h : playMoment s m = .ok s2) :
    s2.con = s.con ∧ s2.ledData.length = s.ledData.length := by
  unfold playMoment at h
  split_ifs at h with he
  · cases h
    exact ⟨rfl, rfl⟩
  · dsimp only at h
    split at h
    · rename_i st2x heq
      cases h
      have hf := playEvents_ok_inv _ _ _ heq
      exact ⟨hf.1, hf.2⟩
    · rename_i heq
      exact absurd h (heq s2)

/-- One moment: a rejection keeps the connection and pinpoints a `false`
response. -/
lemma playMoment_reject_inv {s s2 : PSt} {m : Moment} (h : playMoment s m = .reject s2) :
    s2.con = s.con ∧ s2.con (s2.conIdx - 1) = false := by
  unfold playMoment at h
  split_ifs at h with he
  dsimp only at h
  cases hres : playEvents
      { s with ticker := (s.ticker.sleepDuration s.counter 0).2, counter := 0 }
      m.events with
  | ok st1 =>
      rw [hres] at h
      dsimp only at h
      cases h
  | reject st1 =>
      rw [hres] at h
      dsimp only at h
      cases h
      exact playEvents_reject_inv m.events
        { s with ticker := (s.ticker.sleepDuration s.counter 0).2, counter := 0 } _ hres
  | panic =>
      rw [hres] at h
      dsimp only at h
      cases h

/-- One safe moment makes progress under an accepting sink. -/
lemma playMoment_progress {s : PSt} {m : Moment} (hcon : ∀ n, s.con n = true)
    (hsafe : m.events.all eventKeyOk = true) (hlen : s.ledData.length = 176) :
    ∃ s2, playMoment s m = .ok s2 := by
  unfold playMoment
  split_ifs with he
  · exact ⟨_, rfl⟩
  · obtain ⟨s2, hs2⟩ := playEvents_progress m.events
      { s with ticker := (s.ticker.sleepDuration s.counter 0).2, counter := 0 }
      hcon hsafe hlen
    refine ⟨{ s2 with counter := s2.counter + 1 }, ?_⟩
    dsimp only
    rw [hs2]

/-- The moment loop: `ok` preserves connection and buffer length. -/
lemma playMoments_ok_inv :
    ∀ (ms : List Moment) (s s2 : PSt), playMoments s ms = .ok s2 →
      s2.con = s.con ∧ s2.ledData.length = s.ledData.length := by
  intro ms
  induction ms with
  | nil =>
      intro s s2 h
      cases h
      exact ⟨rfl, rfl⟩
  | cons m rest ih =>
      intro s s2 h
      unfold playMoments at h
      cases hres : playMoment s m with
      | ok st1 =>
          rw [hres] at h
          dsimp only at h
          have h1 := playMoment_ok_inv hres
          have h2 := ih _ _ h
          exact ⟨h2.1.trans h1.1, h2.2.trans h1.2⟩
      | reject st1 =>
          rw [hres] at h
          dsimp only at h
          cases h
      | panic =>
          rw [hres] at h
          dsimp only at h
          cases h

/-- The moment loop: a rejection keeps the connection and pinpoints a
`false` response. -/
lemma playMoments_reject_inv :
    ∀ (ms : List Moment) (s s2 : PSt), playMoments s ms = .reject s2 →
      s2.con = s.con ∧ s2.con (s2.conIdx - 1) = false := by
  intro ms
  induction ms with
  | nil =>
      intro s s2 h
      cases h
  | cons m rest ih =>
      intro s s2 h
      unfold playMoments at h
      cases hres : playMoment s m with
      | ok st1 =>
          rw [hres] at h
          dsimp only at h
          have h1 := playMoment_ok_inv hres
          have h2 := ih _ _ h
          exact ⟨h2.1.trans h1.1, h2.2⟩
      | reject st1 =>
          rw [hres] at h
          dsimp only at h
          cases h
          exact playMoment_reject_inv hres
      | panic =>
          rw [hres] at h
          dsimp only at h
          cases h

/-- A safe sheet completes under an accepting sink. -/
lemma playMoments_progress :
    ∀ (ms : List Moment) (s : PSt), (∀ n, s.con n = true) →
      ms.all (fun m => m.events.all eventKeyOk) = true → s.ledData.length = 176 →
      ∃ s2, playMoments s ms = .ok s2 := by
  intro ms
  induction ms with
  | nil => exact fun s _ _ _ => ⟨s, rfl⟩
  | cons m rest ih =>
      intro s hcon hsafe hlen
      have hsafe1 : m.events.all eventKeyOk = true := by
        simp [List.all_cons] at hsafe
        simpa using hsafe.1
      have hsafer : rest.all (fun m2 => m2.events.all eventKeyOk) = true := by
        simp [List.all_cons] at hsafe
        simpa using hsafe.2
      obtain ⟨s1, hs1⟩ := playMoment_progress hcon hsafe1 hlen
      have hinv := playMoment_ok_inv hs1
      obtain ⟨s2, hs2⟩ := ih s1 (by rw [hinv.1]; exact hcon) hsafer (hinv.2.trans hlen)
      refine ⟨s2, ?_⟩
      unfold playMoments
      rw [hs1]
      dsimp only
      exact hs2

/-- C7 counterexample: on a one-NoteOn sheet with a rejecting sink,
`Player::play` returns the rejection with the last flushed frame still
showing the note and the buffer not all-off — the claimed clear-and-flush on
the rejection exit path does not happen. -/
theorem player_reject_no_clear_c7_counterexample :
    ∃ st, play (TickerQ.new 96) conFalse cSheet1 = .reject st ∧
      st.writes.getLast? ≠ some allOffFrame ∧ st.ledData ≠ allOffFrame := by
  refine ⟨_, rfl, ?_, ?_⟩ <;> decide

/-- C7 (amended): `Player::play` returns `false` immediately when the
connection rejects an event (the result is the loop state itself, with no
further LED write, and the response consumed last was `false`), and returns
`true` on reaching the end of the sheet, in which case — and only on that
path — one final all-off frame is flushed as the last LED write.  Stated for
sheets whose note events carry LED-addressable keys (others panic, cf. C10). -/
theorem player_exit_paths_c7 (tk : TickerQ) (con : Nat → Bool) (sheet : List Moment)
    (hsafe : sheetSafeB sheet = true) :
    ((∀ n, con n = true) → ∃ st, play tk con sheet = .ok st) ∧
    (∀ st, play tk con sheet = .ok st → st.writes.getLast? = some allOffFrame) ∧
    (∀ st, play tk con sheet = .reject st →
      playMoments (initPSt tk con) sheet = .reject st ∧
      st.con = con ∧ st.con (st.conIdx - 1) = false) := by
  refine ⟨?_, ?_, ?_⟩
  · intro hcon
    obtain ⟨s2, hs2⟩ := playMoments_progress sheet (initPSt tk con) hcon hsafe (by simp [initPSt, allOffFrame])
    refine ⟨{ s2 with writes := s2.writes ++ [allOffFrame] }, ?_⟩
    unfold play
    rw [hs2]
  · intro st h
    unfold play at h
    cases hres : playMoments (initPSt tk con) sheet with
    | ok s2 =>
        rw [hres] at h
        dsimp only at h
        cases h
        exact List.getLast?_concat _
    | reject s2 =>
        rw [hres] at h
        dsimp only at h
        cases h
    | panic =>
        rw [hres] at h
        dsimp only at h
        cases h
  · intro st h
    unfold play at h
    cases hres : playMoments (initPSt tk con) sheet with
    | ok s2 =>
        rw [hres] at h
        dsimp only at h
        cases h
    | reject s2 =>
        rw [hres] at h
        dsimp only at h
        cases h
        have hinv := playMoments_reject_inv sheet (initPSt tk con) st hres
        exact ⟨rfl, hinv.1, hinv.2⟩
    | panic =>
        rw [hres] at h
        dsimp only at h
        cases h

/-- Witness for the amended C7: the one-NoteOn sheet completes under an
accepting sink and the last flushed frame is the all-off clear. -/
theorem player_exit_paths_c7_witness :
    sheetSafeB cSheet1 = true ∧
    (∃ st, play (TickerQ.new 96) conTrue cSheet1 = .ok st) ∧
    (∀ st, play (TickerQ.new 96) conTrue cSheet1 = .ok st →
      st.writes.getLast? = some allOffFrame) := by
  have h := player_exit_paths_c7 (TickerQ.new 96) conTrue cSheet1 (by decide)
  exact ⟨by decide, h.1 (fun n => rfl), h.2.1⟩
